import Mathlib

/-!
Verification of the attachment-parsing, download-retry, filename-resolution
and aggregation logic of the student-assignment extraction scripts
(`extract_student_assignment*.py`, `download_student_files.py`).

Python strings are modelled as Lean `String`; Python `None` as `Option`;
fallible operations (`parts[i]` indexing, which can raise `IndexError`)
as `Except`.  The string primitives used by the scripts (`str.split`,
`str.strip`, `str.startswith`) are modelled over the character lists.
-/

/-- Characters treated as whitespace by Python `str.strip()` (the ASCII
whitespace characters actually occurring in the data). -/
def pyIsSpace (c : Char) : Bool :=
  c = ' ' || c = '\t' || c = '\n' || c = '\r' || c.toNat = 11 || c.toNat = 12

/-- Model of Python `str.strip()`: drop whitespace from both ends. -/
def pyStrip (s : String) : String :=
  String.mk (((s.data.dropWhile pyIsSpace).reverse.dropWhile pyIsSpace).reverse)

/-- Check whether the first list occurs at the start of the second. -/
def startsWithChars : List Char → List Char → Bool
  | [], _ => true
  | _ :: _, [] => false
  | p :: ps, c :: cs => p = c && startsWithChars ps cs

/-- Model of Python `str.startswith(pre)`. -/
def pyStartsWith (s pre : String) : Bool :=
  startsWithChars pre.data s.data

/-- Model of Python `str.split(sep)` for a non-empty separator, on character
lists: scan left to right, cutting at each non-overlapping occurrence of
`sep`; `acc` holds the current segment.  The fuel argument makes
the recursion structural; each step consumes at least one character, so
fuel `l.length` never runs out (the fuel-exhausted case is unreachable). -/
def splitA (sep : List Char) : Nat → List Char → List Char → List (List Char)
  | _, [], acc => [acc]
  | 0, l, acc => [acc ++ l]
  | fuel + 1, c :: rest, acc =>
    if sep ≠ [] ∧ startsWithChars sep (c :: rest) then
      acc :: splitA sep fuel (rest.drop (sep.length - 1)) []
    else
      splitA sep fuel rest (acc ++ [c])

/-- Model of Python `s.split(sep)` (non-empty `sep`). -/
def pySplit (s sep : String) : List String :=
  (splitA sep.data s.data.length s.data []).map String.mk

/-- Python list indexing `xs[i]`, which raises `IndexError` out of range. -/
def pyGetItem (xs : List String) (i : Nat) : Except String String :=
  match xs.get? i with
  | some v => Except.ok v
  | none => Except.error ("IndexError")

/-- The loop in the malformed-descriptor fallback of
`extract_file_info_from_attachment`: iterate over the lines, strip each,
and return the first stripped line that starts with `https://`. -/
def findHttps : List String → Option String
  | [] => none
  | l :: rest =>
    let line := pyStrip l
    if pyStartsWith line ("https://") then some line else findHttps rest

/-- `extract_file_info_from_attachment` from
`extract_student_assignment_v4.py` / `download_student_files.py`
(the two copies are identical).  Returns `(file_type, file_name, file_url)`.
The condition `attachment_string = ""` models Python's falsiness test
`not attachment_string` on a string. -/
def extract_file_info_from_attachment (attachment_string : String) :
    Option String × Option String × Option String :=
  if attachment_string = "" ∨ attachment_string = "첨부없음" ∨ attachment_string = "-" then
    (none, none, none)
  else
    let parts := pySplit attachment_string (" | ")
    if 3 ≤ parts.length then
      let file_type := pyStrip (parts.getD 0 "")
      let file_name := pyStrip (parts.getD 1 "")
      let file_url := pyStrip (parts.getD 2 "")
      let url_lines := pySplit file_url ("\n")
      let clean_url := pyStrip (url_lines.getD 0 "")
      (some file_type, some file_name, some clean_url)
    else
      (none, some attachment_string, findHttps (pySplit attachment_string ("\n")))

/-- The same function with Python's fallible list indexing made explicit:
each `parts[i]` access goes through `pyGetItem`, so an out-of-range access
would surface as `Except.error` (Python `IndexError`). -/
def extractFileInfoE (attachment_string : String) :
    Except String (Option String × Option String × Option String) := do
  if attachment_string = "" ∨ attachment_string = "첨부없음" ∨ attachment_string = "-" then
    return (none, none, none)
  else
    let parts := pySplit attachment_string (" | ")
    if 3 ≤ parts.length then
      let file_type := pyStrip (← pyGetItem parts 0)
      let file_name := pyStrip (← pyGetItem parts 1)
      let file_url := pyStrip (← pyGetItem parts 2)
      let url_lines := pySplit file_url ("\n")
      let clean_url := pyStrip (← pyGetItem url_lines 0)
      return (some file_type, some file_name, some clean_url)
    else
      return (none, some attachment_string, findHttps (pySplit attachment_string ("\n")))

/-- Spec-side helper: the first line of a string (text before any embedded
newline), trimmed. -/
def specFirstLine (v : String) : String :=
  pyStrip ((pySplit v ("\n")).headI)

/-- Spec-side helper: scan the lines of a descriptor for one that, after
trimming, starts with `https://`; yield the trimmed line. -/
def specScanHttps (s : String) : Option String :=
  ((pySplit s ("\n")).find? (fun l => pyStartsWith (pyStrip l) ("https://"))).map pyStrip

example : pySplit ("a | b | c") (" | ") = ["a", "b", "c"] := by decide
example : pySplit ("") (" | ") = [""] := by decide
example : extract_file_info_from_attachment ("pdf | hw1.pdf | https://x/y.pdf") =
    (some ("pdf"), some ("hw1.pdf"), some ("https://x/y.pdf")) := by decide
example : extract_file_info_from_attachment ("첨부없음") = (none, none, none) := by decide
example : extract_file_info_from_attachment ("a | b | https://u\njunk") =
    (some ("a"), some ("b"), some ("https://u")) := by decide
example : extract_file_info_from_attachment ("name\n https://host/f \nextra") =
    (none, some ("name\n https://host/f \nextra"), some ("https://host/f")) := by decide

/-!
`download_file` from `download_student_files.py`.  The network is modelled
by an oracle giving the outcome of each HTTP attempt: a full successful
write of the body, a `requests.exceptions.RequestException`
(network-level: timeout, connection error, non-2xx via
`raise_for_status`), or any other exception (unrecoverable).
-/

/-- Outcome of one HTTP download attempt. -/
inductive AttemptOutcome where
  | success
  | netError
  | otherError
deriving DecidableEq

/-- The `for attempt in range(max_retries)` loop of `download_file`.
Returns `(result, attempts_used, delays)` where `delays` lists the
`time.sleep` durations performed between attempts, in order.  The fuel
equals `max_retries - attempt`, so fuel `0` is the loop exhausting its
range and falling through to `return False`. -/
def downloadLoop (outcomes : Nat → AttemptOutcome) (max_retries : Nat) :
    Nat → Nat → Bool × Nat × List Nat
  | 0, attempt => (false, attempt, [])
  | fuel + 1, attempt =>
    match outcomes attempt with
    | AttemptOutcome.success => (true, attempt + 1, [])
    | AttemptOutcome.otherError => (false, attempt + 1, [])
    | AttemptOutcome.netError =>
      if attempt < max_retries - 1 then
        match downloadLoop outcomes max_retries fuel (attempt + 1) with
        | (res, n, ds) => (res, n, 2 ^ attempt :: ds)
      else
        (false, attempt + 1, [])

/-- `download_file(url, file_path, max_retries)`: run the attempt loop from
attempt 0.  The `url` and `file_path` arguments do not influence control
flow in the source and are kept only for the signature. -/
def download_file (url file_path : String) (outcomes : Nat → AttemptOutcome)
    (max_retries : Nat) : Bool × Nat × List Nat :=
  downloadLoop outcomes max_retries max_retries 0

/-!
Filename collision resolution: the `while os.path.exists(file_path)` loop
of `process_json_file`.  The set of occupied paths is modelled as a list
of names in the student folder.
-/

/-- The index at which `os.path.splitext` splits a plain file name: the
position of the last dot that has some non-dot character before it
(leading dots never start an extension). -/
def extSplitIdx (cs : List Char) : Option Nat :=
  ((List.range cs.length).filter (fun i =>
    cs.getD i ' ' == '.' && (List.range i).any (fun j => cs.getD j ' ' != '.'))).getLast?

/-- Model of `os.path.splitext` on a plain file name (the source only
applies it to sanitized base names, which contain no path separators). -/
def splitext (p : String) : String × String :=
  match extSplitIdx p.data with
  | some i => (String.mk (p.data.take i), String.mk (p.data.drop i))
  | none => (p, "")

/-- The candidate file name tried at counter value `k`: the original name
for `k = 0`, and `f"{name}_{k}{ext}"` (with `(name, ext)` =
`splitext(original_filename)`) for `k ≥ 1`. -/
def candidateName (original : String) (k : Nat) : String :=
  match k with
  | 0 => original
  | Nat.succ _ =>
    let ne := splitext original
    ne.1 ++ ("_") ++ Nat.repr k ++ ne.2

/-- The `while os.path.exists(file_path)` loop: starting from counter
value `counter`, return the first candidate not in `occupied`.  Fuel
bounds the iteration; `resolveFilename` supplies enough fuel for the
loop to find a free name, so the fuel-exhausted base case is
unreachable. -/
def resolveFrom (occupied : List String) (original : String) :
    Nat → Nat → String
  | 0, counter => candidateName original counter
  | fuel + 1, counter =>
    if candidateName original counter ∈ occupied then
      resolveFrom occupied original fuel (counter + 1)
    else
      candidateName original counter

/-- Collision resolution for a desired name against the occupied paths. -/
def resolveFilename (occupied : List String) (clean_filename : String) : String :=
  resolveFrom occupied clean_filename (occupied.length + 1) 0

example : splitext ("report.pdf") = ("report", ".pdf") := by decide
example : splitext ("noext") = ("noext", "") := by decide
example : splitext (".bashrc") = (".bashrc", "") := by decide
example : resolveFilename [] ("report.pdf") = "report.pdf" := by decide
example : resolveFilename ["report.pdf"] ("report.pdf") = "report_1.pdf" := by decide
example : resolveFilename ["report_1.pdf", "report.pdf"] ("report.pdf") = "report_2.pdf" := by
  decide
example : download_file ("u") ("p") (fun _ => AttemptOutcome.netError) 3 =
    (false, 3, [1, 2]) := by decide
example :
    download_file ("u") ("p")
      (fun i => if i < 2 then AttemptOutcome.netError else AttemptOutcome.success) 3 =
    (true, 3, [1, 2]) := by decide
example : download_file ("u") ("p")
    (fun i => if i = 0 then AttemptOutcome.netError else AttemptOutcome.otherError) 3 =
    (false, 2, [1]) := by decide

/-!
Data model of the exported JSON reports, and the two traversals built on
it: the download pipeline (`process_json_file` in
`download_student_files.py`) and the extraction pipeline
(`extract_student_assignments_from_json` / `create_csv_file` in
`extract_student_assignment_v4.py`).  A missing JSON key is `none`.
-/

/-- One assignment entry of a member.  Each field is `none` when the
corresponding JSON key is absent. -/
structure Assignment where
  subject : Option String
  submitSubject : Option String
  submitAttachments : Option String
  submitCreated : Option String
  submitReview : Option String
deriving DecidableEq

/-- One entry of `statsByMember`.  `member` is `none` when the `member`
key is absent; its payload is the optional `displayName`.  `assignments`
models `member_data.get('assignments', [])`. -/
structure MemberData where
  member : Option (Option String)
  assignments : List Assignment
deriving DecidableEq

/-- One parsed JSON input file.  `statsByMember` is `none` when the key is
absent or not a list. -/
structure ClassData where
  statsByMember : Option (List MemberData)
deriving DecidableEq

/-- The per-file statistics dictionary of `process_json_file`. -/
structure DownloadStats where
  total_files : Nat
  successful_downloads : Nat
  failed_downloads : Nat
  students_processed : Nat
deriving DecidableEq

/-- The all-zero statistics `process_json_file` starts from. -/
def zeroStats : DownloadStats :=
  { total_files := 0, successful_downloads := 0, failed_downloads := 0,
    students_processed := 0 }

/-- Field-wise sum, modelling `total_stats[key] += file_stats.get(key, 0)`. -/
def statsAdd (s t : DownloadStats) : DownloadStats :=
  { total_files := s.total_files + t.total_files,
    successful_downloads := s.successful_downloads + t.successful_downloads,
    failed_downloads := s.failed_downloads + t.failed_downloads,
    students_processed := s.students_processed + t.students_processed }

/-- The body of the per-assignment loop of `process_json_file`, restricted
to its statistics effect.  State: current stats, number of download calls
made so far (indexing into the download oracle), and the member-local
`student_files` count.  File paths do not influence the statistics, so
the filename steps are not threaded here. -/
def processAssignment (oracle : Nat → Bool)
    (st : DownloadStats × Nat × Nat) (a : Assignment) :
    DownloadStats × Nat × Nat :=
  match a.submitAttachments with
  | none => st
  | some att =>
    if att = "첨부없음" ∨ att = "-" then st
    else
      let parsed := extract_file_info_from_attachment att
      match parsed.2.2 with
      | none => st
      | some file_url =>
        if file_url = "" ∨ ¬ pyStartsWith file_url ("https://") then st
        else
          let (stats, k, student_files) := st
          let ok := oracle k
          let stats1 := { stats with total_files := stats.total_files + 1 }
          let stats2 :=
            if ok then
              { stats1 with successful_downloads := stats1.successful_downloads + 1 }
            else
              { stats1 with failed_downloads := stats1.failed_downloads + 1 }
          (stats2, k + 1, student_files + 1)

/-- The body of the per-member loop of `process_json_file`: skip entries
without a `member` key, fold the assignments with a fresh `student_files`
count, and bump `students_processed` when that member contributed at
least one download attempt. -/
def processMember (oracle : Nat → Bool)
    (st : DownloadStats × Nat) (m : MemberData) : DownloadStats × Nat :=
  match m.member with
  | none => st
  | some _ =>
    if m.assignments = [] then st
    else
      let r := m.assignments.foldl (processAssignment oracle) (st.1, st.2, 0)
      let stats2 := r.1
      let withStudent :=
        if 0 < r.2.2 then
          { stats2 with students_processed := stats2.students_processed + 1 }
        else stats2
      (withStudent, r.2.1)

/-- `process_json_file`: a failed JSON read/parse is caught and yields the
empty dictionary (`none` here); otherwise the members are traversed.  When
`statsByMember` is missing the stats stay at zero. -/
def process_json_file (oracle : Nat → Bool) (j : Except String ClassData) :
    Option DownloadStats :=
  match j with
  | Except.error _ => none
  | Except.ok data =>
    match data.statsByMember with
    | none => some zeroStats
    | some members =>
      some (members.foldl (processMember oracle) (zeroStats, 0)).1

/-- The accumulation loop of `main` in `download_student_files.py`:
process every JSON file in order and fold the per-file statistics into
the running totals with `file_stats.get(key, 0)`. -/
def runAll (files : List ((Nat → Bool) × Except String ClassData)) : DownloadStats :=
  files.foldl
    (fun acc f => statsAdd acc ((process_json_file f.1 f.2).getD zeroStats))
    zeroStats

/-- One row's worth of data collected by the extraction pipeline
(`assignment_info` in `extract_student_assignments_from_json`). -/
structure AssignmentInfo where
  subject : String
  submit_subject : String
  file_type : Option String
  file_name : Option String
  file_url : Option String
  submit_created : String
  submit_review : String
deriving DecidableEq

/-- Append a value under a key in an association list, keeping the first
occurrence ordering of keys: this is `defaultdict(list)` insertion plus
`student_assignments[name].append(info)`. -/
def upsert (m : List (String × List AssignmentInfo)) (k : String)
    (v : AssignmentInfo) : List (String × List AssignmentInfo) :=
  match m with
  | [] => [(k, [v])]
  | (k0, vs) :: rest =>
    if k0 = k then (k0, vs ++ [v]) :: rest else (k0, vs) :: upsert rest k v

/-- Build the `assignment_info` dictionary for one qualifying assignment. -/
def mkAssignmentInfo (a : Assignment) (att : String) : AssignmentInfo :=
  let parsed := extract_file_info_from_attachment att
  { subject := a.subject.getD ("과제명 없음"),
    submit_subject := a.submitSubject.getD ("제출 제목 없음"),
    file_type := parsed.1,
    file_name := parsed.2.1,
    file_url := parsed.2.2,
    submit_created := a.submitCreated.getD ("날짜 없음"),
    submit_review := a.submitReview.getD ("후기 없음") }

/-- `extract_student_assignments_from_json` of
`extract_student_assignment_v4.py`, as a pure function of the parsed JSON
data: the resulting `student_assignments` dictionary as an association
list in key-insertion order. -/
def extract_student_assignments_from_json (data : ClassData) :
    List (String × List AssignmentInfo) :=
  match data.statsByMember with
  | none => []
  | some members =>
    members.foldl
      (fun acc m =>
        match m.member with
        | none => acc
        | some displayName =>
          let student_name := displayName.getD ("이름 없음")
          if m.assignments = [] then acc
          else
            m.assignments.foldl
              (fun acc2 a =>
                match a.submitAttachments with
                | none => acc2
                | some att =>
                  if att = "첨부없음" ∨ att = "-" then acc2
                  else upsert acc2 student_name (mkAssignmentInfo a att))
              acc)
      []

/-- The data rows written by `create_csv_file`: iterate the student names
in sorted order and write one row per stored assignment.  A row is
modelled as the written student name paired with the assignment info. -/
def create_csv_rows (sa : List (String × List AssignmentInfo)) :
    List (String × AssignmentInfo) :=
  (List.insertionSort (fun a b : String => a ≤ b) (sa.map Prod.fst)).flatMap
    (fun name => ((sa.lookup name).getD []).map (fun info => (name, info)))

/-- Fixture for the end-to-end CSV property: two members, one with two
valid attachments and one whose only assignment carries the sentinel. -/
def fixtureData : ClassData :=
  { statsByMember := some
      [ { member := some (some ("이영희")),
          assignments :=
            [ { subject := some ("과제1"), submitSubject := some ("제출1"),
                submitAttachments :=
                  some ("application/pdf | hw1.pdf | https://files/a.pdf"),
                submitCreated := some ("2024-03-01"),
                submitReview := some ("좋았어요") },
              { subject := some ("과제2"), submitSubject := some ("제출2"),
                submitAttachments :=
                  some ("application/pdf | hw2.pdf | https://files/b.pdf"),
                submitCreated := some ("2024-03-08"),
                submitReview := some ("재밌었어요") } ] },
        { member := some (some ("김철수")),
          assignments :=
            [ { subject := some ("과제1"), submitSubject := none,
                submitAttachments := some ("첨부없음"),
                submitCreated := none, submitReview := none } ] } ] }

example :
    (create_csv_rows (extract_student_assignments_from_json fixtureData)).length = 2 := by
  decide
example :
    (create_csv_rows (extract_student_assignments_from_json fixtureData)).map Prod.fst =
      ["이영희", "이영희"] := by decide
example :
    (process_json_file (fun _ => true) (Except.ok fixtureData)).getD zeroStats =
      { total_files := 2, successful_downloads := 2, failed_downloads := 0,
        students_processed := 1 } := by decide
example :
    (process_json_file (fun k => k = 0) (Except.ok fixtureData)).getD zeroStats =
      { total_files := 2, successful_downloads := 1, failed_downloads := 1,
        students_processed := 1 } := by decide
example : process_json_file (fun _ => true) (Except.error ("boom")) = none := by decide

/-! Helper lemmas about the string primitives and the parser. -/

/-- `splitA` never returns the empty list. -/
theorem splitA_ne_nil (sep : List Char) :
    ∀ (fuel : Nat) (l acc : List Char), splitA sep fuel l acc ≠ [] := by
  intro fuel
  induction fuel with
  | zero =>
    intro l acc
    cases l <;> simp [splitA]
  | succ f ih =>
    intro l acc
    cases l with
    | nil => simp [splitA]
    | cons c rest =>
      rw [splitA]
      split
      · exact List.cons_ne_nil _ _
      · exact ih _ _

/-- `pySplit` never returns the empty list. -/
theorem pySplit_ne_nil (s sep : String) : pySplit s sep ≠ [] := by
  unfold pySplit
  intro h
  exact splitA_ne_nil sep.data s.data.length s.data [] (List.map_eq_nil_iff.mp h)

/-- For a nonempty list, `getD 0` is the head. -/
theorem getD_zero_eq_headI (l : List String) (h : l ≠ []) : l.getD 0 "" = l.headI := by
  cases l with
  | nil => exact absurd rfl h
  | cons a t => rfl

/-- The fallback loop equals the spec-side scan. -/
theorem findHttps_eq_specScan (lines : List String) :
    findHttps lines =
      (lines.find? (fun l => pyStartsWith (pyStrip l) ("https://"))).map pyStrip := by
  induction lines with
  | nil => rfl
  | cons l rest ih =>
    rw [findHttps, List.find?]
    by_cases h : pyStartsWith (pyStrip l) ("https://") = true
    · simp [h]
    · simp only [Bool.not_eq_true] at h
      simp [h, ih]

/-- Core of C1: behaviour of the parser on descriptors whose pipe split
has at least three segments. -/
theorem parse_split_three (s t n u : String) (rest : List String)
    (hs : ¬ (s = "" ∨ s = "첨부없음" ∨ s = "-"))
    (hsplit : pySplit s (" | ") = t :: n :: u :: rest) :
    extract_file_info_from_attachment s =
      (some (pyStrip t), some (pyStrip n), some (specFirstLine (pyStrip u))) := by
  rw [extract_file_info_from_attachment, if_neg hs, hsplit]
  have hlen : 3 ≤ (t :: n :: u :: rest).length := by simp
  rw [if_pos hlen]
  have h0 : (t :: n :: u :: rest).getD 0 "" = t := rfl
  have h1 : (t :: n :: u :: rest).getD 1 "" = n := rfl
  have h2 : (t :: n :: u :: rest).getD 2 "" = u := rfl
  rw [h0, h1, h2]
  simp only [specFirstLine,
    getD_zero_eq_headI (pySplit (pyStrip u) ("\n")) (pySplit_ne_nil _ _)]

/-- Core of C3: behaviour of the parser on non-sentinel descriptors whose
pipe split has fewer than three segments. -/
theorem parse_split_short (s : String)
    (hs : ¬ (s = "" ∨ s = "첨부없음" ∨ s = "-"))
    (hlen : (pySplit s (" | ")).length < 3) :
    extract_file_info_from_attachment s = (none, some s, specScanHttps s) := by
  rw [extract_file_info_from_attachment, if_neg hs, if_neg (by omega), specScanHttps,
    findHttps_eq_specScan]

/-- `pyGetItem` succeeds on every in-range index. -/
theorem pyGetItem_ok (xs : List String) (i : Nat) (h : i < xs.length) :
    pyGetItem xs i = Except.ok (xs.getD i "") := by
  unfold pyGetItem
  have hsome : xs.get? i = some (xs.getD i "") := by
    rw [List.getD_eq_getD_get?]
    cases hx : xs.get? i with
    | none => exact absurd (List.get?_eq_none.mp hx) (by omega)
    | some v => rfl
  rw [hsome]

/-- The explicit-indexing variant never raises: every list access is in
range, so it returns exactly the pure parser's triple. -/
theorem extractFileInfoE_ok (s : String) :
    extractFileInfoE s = Except.ok (extract_file_info_from_attachment s) := by
  unfold extractFileInfoE extract_file_info_from_attachment
  by_cases hs : s = "" ∨ s = "첨부없음" ∨ s = "-"
  · simp only [if_pos hs]
    rfl
  · simp only [if_neg hs]
    by_cases hlen : 3 ≤ (pySplit s (" | ")).length
    · rcases hx : pySplit s (" | ") with _ | ⟨p0, _ | ⟨p1, _ | ⟨p2, rest⟩⟩⟩
      · rw [hx] at hlen
        simp at hlen
      · rw [hx] at hlen
        simp at hlen
      · rw [hx] at hlen
        simp at hlen
      · obtain ⟨u0, utl, hu⟩ :=
          List.exists_cons_of_ne_nil (pySplit_ne_nil (pyStrip p2) ("\n"))
        have hlen3 : 3 ≤ (p0 :: p1 :: p2 :: rest).length := by simp
        rw [if_pos hlen3, if_pos hlen3]
        conv_lhs => whnf
        rw [show (p0 :: p1 :: p2 :: rest).getD 2 ("") = p2 from rfl, hu]
        rfl
    · simp only [if_neg hlen]
      rfl

/-- Sentinel and empty descriptors leave the download-pipeline statistics
untouched: the sentinel gate skips `"첨부없음"` / `"-"`, and an empty
descriptor parses to an absent URL and fails the URL validation. -/
theorem processAssignment_sentinel (d : String)
    (hd : d = "" ∨ d = "첨부없음" ∨ d = "-")
    (o : Nat → Bool) (st : DownloadStats × Nat × Nat) (a : Assignment)
    (ha : a.submitAttachments = some d) :
    processAssignment o st a = st := by
  rcases hd with h | h | h <;> subst h
  · have hp : extract_file_info_from_attachment "" = (none, none, none) := by decide
    simp [processAssignment, ha, hp]
  · simp [processAssignment, ha]
  · simp [processAssignment, ha]

/-- C1.  If a non-sentinel descriptor splits on `" | "` into three or more
segments, the parser returns the first segment trimmed as `file_type`, the
second trimmed as `file_name`, and as `file_url` only the first line
(before any embedded newline) of the third trimmed segment, itself
trimmed; any fourth-and-later segments do not influence the result (the
right-hand side does not mention `rest`). -/
theorem C1_parse_three_segments (s t n u : String) (rest : List String)
    (hs : ¬ (s = "" ∨ s = "첨부없음" ∨ s = "-"))
    (hsplit : pySplit s (" | ") = t :: n :: u :: rest) :
    extract_file_info_from_attachment s =
      (some (pyStrip t), some (pyStrip n), some (specFirstLine (pyStrip u))) :=
  parse_split_three s t n u rest hs hsplit

/-- Witness for C1 at the concrete descriptor
`"application/pdf | hw1.pdf | https://x/y.pdf\njunk | extra"`: four
segments, a newline inside the third. -/
theorem C1_parse_three_segments_witness :
    ¬ (("application/pdf | hw1.pdf | https://x/y.pdf\njunk | extra" : String) = "" ∨
        ("application/pdf | hw1.pdf | https://x/y.pdf\njunk | extra" : String) = "첨부없음" ∨
        ("application/pdf | hw1.pdf | https://x/y.pdf\njunk | extra" : String) = "-") ∧
      pySplit ("application/pdf | hw1.pdf | https://x/y.pdf\njunk | extra") (" | ") =
        ["application/pdf", "hw1.pdf", "https://x/y.pdf\njunk", "extra"] ∧
      extract_file_info_from_attachment
          ("application/pdf | hw1.pdf | https://x/y.pdf\njunk | extra") =
        (some (pyStrip ("application/pdf")), some (pyStrip ("hw1.pdf")),
          some (specFirstLine (pyStrip ("https://x/y.pdf\njunk")))) :=
  ⟨by decide, by decide,
    C1_parse_three_segments _ ("application/pdf") ("hw1.pdf") ("https://x/y.pdf\njunk")
      ["extra"] (by decide) (by decide)⟩

/-- C2.  An empty or sentinel descriptor parses to all three fields
absent, and an assignment carrying such a descriptor never changes the
download statistics (in particular it is never counted in `total_files`,
the count of submissions with a file). -/
theorem C2_sentinel_all_absent (d : String)
    (hd : d = "" ∨ d = "첨부없음" ∨ d = "-") :
    extract_file_info_from_attachment d = (none, none, none) ∧
      ∀ (o : Nat → Bool) (st : DownloadStats × Nat × Nat) (a : Assignment),
        a.submitAttachments = some d → processAssignment o st a = st := by
  constructor
  · rw [extract_file_info_from_attachment, if_pos hd]
  · intro o st a ha
    exact processAssignment_sentinel d hd o st a ha

/-- Witness for C2 at the sentinel `"첨부없음"` and a concrete assignment. -/
theorem C2_sentinel_all_absent_witness :
    extract_file_info_from_attachment ("첨부없음") = (none, none, none) ∧
      processAssignment (fun _ => true) (zeroStats, 0, 0)
        { subject := none, submitSubject := none,
          submitAttachments := some ("첨부없음"),
          submitCreated := none, submitReview := none } = (zeroStats, 0, 0) := by
  have h := C2_sentinel_all_absent ("첨부없음") (Or.inr (Or.inl rfl))
  exact ⟨h.1, h.2 _ _ _ rfl⟩

/-- C3.  A non-sentinel, non-empty descriptor whose pipe split has fewer
than three segments is handled by the fallback: the whole descriptor is
split on newlines and scanned for a line that, after trimming, starts
with `https://`; the result has `file_type` absent, `file_name` equal to
the entire original descriptor, and `file_url` equal to the first such
trimmed line if one exists and absent otherwise. -/
theorem C3_parse_fallback (s : String)
    (hs : ¬ (s = "" ∨ s = "첨부없음" ∨ s = "-"))
    (hlen : (pySplit s (" | ")).length < 3) :
    extract_file_info_from_attachment s = (none, some s, specScanHttps s) :=
  parse_split_short s hs hlen

/-- Witness for C3: one descriptor with an embedded URL line and one
without any; in both cases `file_name` is the whole descriptor. -/
theorem C3_parse_fallback_witness :
    ¬ (("my essay\n https://host/f.pdf \ntrailing" : String) = "" ∨
        ("my essay\n https://host/f.pdf \ntrailing" : String) = "첨부없음" ∨
        ("my essay\n https://host/f.pdf \ntrailing" : String) = "-") ∧
      (pySplit ("my essay\n https://host/f.pdf \ntrailing") (" | ")).length < 3 ∧
      extract_file_info_from_attachment ("my essay\n https://host/f.pdf \ntrailing") =
        (none, some ("my essay\n https://host/f.pdf \ntrailing"),
          specScanHttps ("my essay\n https://host/f.pdf \ntrailing")) :=
  ⟨by decide, by decide, C3_parse_fallback _ (by decide) (by decide)⟩

/-- C7.  The parser is total on arbitrary descriptor strings: every list
access made by the source is in range, so the `Except`-instrumented
variant never returns an error and always produces the triple of optional
fields computed by the pure parser. -/
theorem C7_parse_total (s : String) :
    extractFileInfoE s = Except.ok (extract_file_info_from_attachment s) :=
  extractFileInfoE_ok s

/-! Helper lemmas about the download-retry loop. -/

/-- Structure of one `downloadLoop` run starting at `attempt = a` with
fuel `max_retries - a`: the attempt counter ends between `a` (inclusive,
only when the range is empty) and `max_retries`, and the recorded delays
are exactly `2^a, 2^(a+1), ...`, one per gap between successive
attempts. -/
theorem downloadLoop_spec (o : Nat → AttemptOutcome) (m : Nat) :
    ∀ fuel a, a + fuel = m →
      a ≤ (downloadLoop o m fuel a).2.1 ∧
      (downloadLoop o m fuel a).2.1 ≤ m ∧
      (0 < fuel → a < (downloadLoop o m fuel a).2.1) ∧
      (downloadLoop o m fuel a).2.2 =
        (List.range' a ((downloadLoop o m fuel a).2.1 - 1 - a)).map (fun i => 2 ^ i) := by
  intro fuel
  induction fuel with
  | zero =>
    intro a ha
    simp only [downloadLoop]
    refine ⟨Nat.le_refl a, by omega, by omega, ?_⟩
    rw [show a - 1 - a = 0 from by omega]
    simp
  | succ f ih =>
    intro a ha
    rw [downloadLoop]
    cases ho : o a with
    | success =>
      dsimp only
      refine ⟨by omega, by omega, by omega, ?_⟩
      rw [show a + 1 - 1 - a = 0 from by omega]
      simp
    | otherError =>
      dsimp only
      refine ⟨by omega, by omega, by omega, ?_⟩
      rw [show a + 1 - 1 - a = 0 from by omega]
      simp
    | netError =>
      dsimp only
      by_cases hlast : a < m - 1
      · rw [if_pos hlast]
        obtain ⟨ih1, ih2, ih3, ih4⟩ := ih (a + 1) (by omega)
        have hf : 0 < f := by omega
        have hlt := ih3 hf
        rcases hr : downloadLoop o m f (a + 1) with ⟨res, nn, ds⟩
        rw [hr] at ih1 ih2 ih4 hlt
        dsimp only at ih1 ih2 ih4 hlt ⊢
        refine ⟨by omega, by omega, by omega, ?_⟩
        rw [ih4]
        have hrange : nn - 1 - a = (nn - 1 - (a + 1)) + 1 := by omega
        rw [hrange, List.range'_succ]
        simp
      · rw [if_neg hlast]
        dsimp only
        refine ⟨by omega, by omega, by omega, ?_⟩
        rw [show a + 1 - 1 - a = 0 from by omega]
        simp

/-- A `true` result means some attempt in range succeeded, with only
network errors before it. -/
theorem downloadLoop_true (o : Nat → AttemptOutcome) (m : Nat) :
    ∀ fuel a, a + fuel = m → (downloadLoop o m fuel a).1 = true →
      ∃ i, a ≤ i ∧ i < m ∧ o i = AttemptOutcome.success ∧
        ∀ j, a ≤ j → j < i → o j = AttemptOutcome.netError := by
  intro fuel
  induction fuel with
  | zero =>
    intro a ha h
    simp [downloadLoop] at h
  | succ f ih =>
    intro a ha h
    rw [downloadLoop] at h
    cases ho : o a with
    | success =>
      exact ⟨a, Nat.le_refl a, by omega, ho, fun j h1 h2 => absurd h2 (by omega)⟩
    | otherError =>
      rw [ho] at h
      simp at h
    | netError =>
      rw [ho] at h
      dsimp only at h
      by_cases hlast : a < m - 1
      · rw [if_pos hlast] at h
        rcases hr : downloadLoop o m f (a + 1) with ⟨res, nn, ds⟩
        rw [hr] at h
        dsimp only at h
        obtain ⟨i, hi1, hi2, hi3, hi4⟩ := ih (a + 1) (by omega) (by rw [hr]; exact h)
        refine ⟨i, by omega, hi2, hi3, ?_⟩
        intro j hj1 hj2
        rcases Nat.eq_or_lt_of_le hj1 with he | hlt
        · rw [← he]
          exact ho
        · exact hi4 j (by omega) hj2
      · rw [if_neg hlast] at h
        simp at h

/-- When every attempt in range fails at network level, the loop exhausts
its range: result `false` after exactly `max_retries` attempts. -/
theorem downloadLoop_allnet (o : Nat → AttemptOutcome) (m : Nat) :
    ∀ fuel a, a + fuel = m →
      (∀ i, a ≤ i → i < m → o i = AttemptOutcome.netError) →
      (downloadLoop o m fuel a).1 = false ∧ (downloadLoop o m fuel a).2.1 = m := by
  intro fuel
  induction fuel with
  | zero =>
    intro a ha _
    simp only [downloadLoop]
    exact ⟨trivial, by omega⟩
  | succ f ih =>
    intro a ha hall
    rw [downloadLoop]
    rw [hall a (Nat.le_refl a) (by omega)]
    dsimp only
    by_cases hlast : a < m - 1
    · rw [if_pos hlast]
      obtain ⟨ih1, ih2⟩ := ih (a + 1) (by omega) (fun i h1 h2 => hall i (by omega) h2)
      rcases hr : downloadLoop o m f (a + 1) with ⟨res, nn, ds⟩
      rw [hr] at ih1 ih2
      dsimp only at ih1 ih2 ⊢
      exact ⟨ih1, ih2⟩
    · rw [if_neg hlast]
      refine ⟨rfl, ?_⟩
      dsimp only
      omega

/-- A non-network error at the first non-network-failing attempt stops the
loop immediately: result `false` after exactly `i + 1` attempts. -/
theorem downloadLoop_other (o : Nat → AttemptOutcome) (m : Nat) :
    ∀ fuel a i, a + fuel = m → a ≤ i → i < m →
      o i = AttemptOutcome.otherError →
      (∀ j, a ≤ j → j < i → o j = AttemptOutcome.netError) →
      (downloadLoop o m fuel a).1 = false ∧ (downloadLoop o m fuel a).2.1 = i + 1 := by
  intro fuel
  induction fuel with
  | zero =>
    intro a i ha h1 h2 _ _
    omega
  | succ f ih =>
    intro a i ha h1 h2 hoth hnet
    rw [downloadLoop]
    rcases Nat.eq_or_lt_of_le h1 with he | hlt
    · rw [← he] at hoth
      rw [hoth]
      dsimp only
      exact ⟨rfl, by omega⟩
    · rw [hnet a (Nat.le_refl a) hlt]
      dsimp only
      have hlast : a < m - 1 := by omega
      rw [if_pos hlast]
      obtain ⟨ih1, ih2⟩ := ih (a + 1) i (by omega) (by omega) h2 hoth
        (fun j hj1 hj2 => hnet j (by omega) hj2)
      rcases hr : downloadLoop o m f (a + 1) with ⟨res, nn, ds⟩
      rw [hr] at ih1 ih2
      dsimp only at ih1 ih2 ⊢
      exact ⟨ih1, ih2⟩

/-- C4.  `download_file` returns `true` only when one attempt wrote the
full response body without error (all earlier attempts being
network-level failures); it returns `false` after `max_retries`
consecutive network-level failures, having used all `max_retries`
attempts; and an unrecoverable (non-network) error at any attempt makes
it return `false` immediately, with no retry after that attempt. -/
theorem C4_download_result (url file_path : String)
    (o : Nat → AttemptOutcome) (m : Nat) :
    ((download_file url file_path o m).1 = true →
      ∃ i, i < m ∧ o i = AttemptOutcome.success ∧
        ∀ j, j < i → o j = AttemptOutcome.netError) ∧
    ((∀ i, i < m → o i = AttemptOutcome.netError) →
      (download_file url file_path o m).1 = false ∧
        (download_file url file_path o m).2.1 = m) ∧
    (∀ i, i < m → o i = AttemptOutcome.otherError →
      (∀ j, j < i → o j = AttemptOutcome.netError) →
      (download_file url file_path o m).1 = false ∧
        (download_file url file_path o m).2.1 = i + 1) := by
  refine ⟨?_, ?_, ?_⟩
  · intro h
    obtain ⟨i, _, hi2, hi3, hi4⟩ := downloadLoop_true o m m 0 (by omega) h
    exact ⟨i, hi2, hi3, fun j hj => hi4 j (Nat.zero_le j) hj⟩
  · intro hall
    exact downloadLoop_allnet o m m 0 (by omega) (fun i _ h2 => hall i h2)
  · intro i hi hoth hnet
    exact downloadLoop_other o m m 0 i (by omega) (Nat.zero_le i) hi hoth
      (fun j _ hj => hnet j hj)

/-- Witness for C4 with `max_retries = 3`: an oracle failing at network
level twice then succeeding gives `true`; the all-network-failure oracle
gives `false` after 3 attempts; an unrecoverable error at attempt 1 (after
one network failure) gives `false` after 2 attempts. -/
theorem C4_download_result_witness :
    ((download_file ("u") ("p")
        (fun i => if i < 2 then AttemptOutcome.netError else AttemptOutcome.success) 3).1 =
          true →
      ∃ i, i < 3 ∧
        (fun i => if i < 2 then AttemptOutcome.netError else AttemptOutcome.success) i =
          AttemptOutcome.success ∧
        ∀ j, j < i →
          (fun i => if i < 2 then AttemptOutcome.netError else AttemptOutcome.success) j =
            AttemptOutcome.netError) ∧
    ((download_file ("u") ("p") (fun _ => AttemptOutcome.netError) 3).1 = false ∧
      (download_file ("u") ("p") (fun _ => AttemptOutcome.netError) 3).2.1 = 3) ∧
    ((download_file ("u") ("p")
        (fun i => if i = 0 then AttemptOutcome.netError else AttemptOutcome.otherError) 3).1 =
          false ∧
      (download_file ("u") ("p")
        (fun i => if i = 0 then AttemptOutcome.netError else AttemptOutcome.otherError)
          3).2.1 = 2) := by
  refine ⟨(C4_download_result ("u") ("p") _ 3).1, ?_, ?_⟩
  · exact (C4_download_result ("u") ("p") (fun _ => AttemptOutcome.netError) 3).2.1
      (fun i _ => rfl)
  · exact (C4_download_result ("u") ("p")
      (fun i => if i = 0 then AttemptOutcome.netError else AttemptOutcome.otherError) 3).2.2
      1 (by omega) (by decide) (fun j hj => by interval_cases j; decide)

/-- C5.  The delays slept between attempts are exactly
`2^0, 2^1, ..., 2^(n-2)` where `n` is the number of attempts actually
performed: one delay of `2^k` after failed attempt `k` for each gap
between successive attempts, hence none after the final attempt; and the
number of attempts never exceeds `max_retries`. -/
theorem C5_download_backoff (url file_path : String)
    (o : Nat → AttemptOutcome) (m : Nat) :
    (download_file url file_path o m).2.2 =
        (List.range ((download_file url file_path o m).2.1 - 1)).map (fun i => 2 ^ i) ∧
      (download_file url file_path o m).2.2.length =
        (download_file url file_path o m).2.1 - 1 ∧
      (download_file url file_path o m).2.1 ≤ m := by
  obtain ⟨h1, h2, h3, h4⟩ := downloadLoop_spec o m m 0 (by omega)
  have hr : (download_file url file_path o m).2.2 =
      (List.range ((download_file url file_path o m).2.1 - 1)).map (fun i => 2 ^ i) := by
    unfold download_file
    rw [h4, List.range_eq_range']
    rfl
  refine ⟨hr, ?_, h2⟩
  rw [hr]
  simp

/-!
Injectivity of the decimal printing used by the collision counter
(`f"{name}_{counter}{ext}"` prints `counter` via `Nat.repr`), proved by
relating `Nat.toDigitsCore` to `Nat.digits`.
-/

/-- `Nat.digitChar` is injective below 10 (checked on `Fin 10`). -/
theorem digitChar_inj_fin :
    ∀ a b : Fin 10, Nat.digitChar a.val = Nat.digitChar b.val → a = b := by decide

/-- `Nat.digitChar` is injective on digits. -/
theorem digitChar_inj (a b : Nat) (ha : a < 10) (hb : b < 10)
    (h : Nat.digitChar a = Nat.digitChar b) : a = b := by
  have := digitChar_inj_fin ⟨a, ha⟩ ⟨b, hb⟩ h
  exact congrArg Fin.val this

/-- With enough fuel, `Nat.toDigitsCore` on a positive number produces the
big-endian decimal digits prepended to the accumulator. -/
theorem toDigitsCore_eq_digits (n : Nat) :
    ∀ fuel ds, 1 ≤ n → n ≤ fuel →
      Nat.toDigitsCore 10 fuel n ds =
        ((Nat.digits 10 n).reverse.map Nat.digitChar) ++ ds := by
  induction n using Nat.strong_induction_on with
  | _ n ih =>
    intro fuel ds hn hfuel
    obtain ⟨f, rfl⟩ : ∃ f, fuel = f + 1 := ⟨fuel - 1, by omega⟩
    rw [Nat.toDigitsCore]
    by_cases hdiv : n / 10 = 0
    · have hlt : n < 10 := by omega
      rw [if_pos hdiv]
      rw [Nat.digits_def' (by omega : 1 < 10) (by omega : 0 < n), hdiv, Nat.digits_zero,
        Nat.mod_eq_of_lt hlt]
      simp
    · rw [if_neg hdiv]
      have hrec : n / 10 < n := Nat.div_lt_self (by omega) (by omega)
      have := ih (n / 10) hrec f (Nat.digitChar (n % 10) :: ds) (by omega) (by omega)
      rw [this, Nat.digits_def' (by omega : 1 < 10) (by omega : 0 < n)]
      simp

/-- `Nat.toDigits 10` in terms of `Nat.digits`. -/
theorem toDigits_eq_digits (n : Nat) :
    Nat.toDigits 10 n =
      if n = 0 then ['0'] else (Nat.digits 10 n).reverse.map Nat.digitChar := by
  by_cases h : n = 0
  · subst h
    rw [if_pos rfl]
    rfl
  · rw [if_neg h, Nat.toDigits]
    exact (toDigitsCore_eq_digits n (n + 1) [] (by omega) (by omega)).trans (by simp)

/-- Mapping `digitChar` over digit lists is injective. -/
theorem map_digitChar_inj :
    ∀ (l1 l2 : List Nat), (∀ x ∈ l1, x < 10) → (∀ x ∈ l2, x < 10) →
      l1.map Nat.digitChar = l2.map Nat.digitChar → l1 = l2 := by
  intro l1
  induction l1 with
  | nil =>
    intro l2 _ _ h
    cases l2 with
    | nil => rfl
    | cons b t => simp at h
  | cons a t1 ih =>
    intro l2 h1 h2 h
    cases l2 with
    | nil => simp at h
    | cons b t2 =>
      simp only [List.map_cons, List.cons.injEq] at h
      have hab : a = b :=
        digitChar_inj a b (h1 a (List.mem_cons_self a t1)) (h2 b (List.mem_cons_self b t2)) h.1
      have ht : t1 = t2 :=
        ih t2 (fun x hx => h1 x (List.mem_cons_of_mem a hx))
          (fun x hx => h2 x (List.mem_cons_of_mem b hx)) h.2
      rw [hab, ht]

/-- Decimal printing of naturals is injective. -/
theorem natRepr_inj (a b : Nat) (h : Nat.repr a = Nat.repr b) : a = b := by
  have hd : Nat.toDigits 10 a = Nat.toDigits 10 b := by
    have := congrArg String.data h
    simpa [Nat.repr, List.asString] using this
  rw [toDigits_eq_digits, toDigits_eq_digits] at hd
  by_cases ha : a = 0 <;> by_cases hb : b = 0
  · rw [ha, hb]
  · exfalso
    rw [if_pos ha, if_neg hb] at hd
    have h0 : (Nat.digits 10 b).reverse = [0] := by
      have := map_digitChar_inj [0] (Nat.digits 10 b).reverse (by simp)
        (fun x hx => Nat.digits_lt_base (by omega) (List.mem_reverse.mp hx)) (by simpa using hd)
      exact this.symm
    have hb0 : Nat.digits 10 b = [0] := by
      have := congrArg List.reverse h0
      simpa using this
    have := Nat.ofDigits_digits 10 b
    rw [hb0] at this
    simp at this
    exact hb this.symm
  · exfalso
    rw [if_neg ha, if_pos hb] at hd
    have h0 : (Nat.digits 10 a).reverse = [0] := by
      have := map_digitChar_inj [0] (Nat.digits 10 a).reverse (by simp)
        (fun x hx => Nat.digits_lt_base (by omega) (List.mem_reverse.mp hx))
        (by simpa using hd.symm)
      exact this.symm
    have ha0 : Nat.digits 10 a = [0] := by
      have := congrArg List.reverse h0
      simpa using this
    have := Nat.ofDigits_digits 10 a
    rw [ha0] at this
    simp at this
    exact ha this.symm
  · rw [if_neg ha, if_neg hb] at hd
    have hrev : (Nat.digits 10 a).reverse = (Nat.digits 10 b).reverse :=
      map_digitChar_inj _ _
        (fun x hx => Nat.digits_lt_base (by omega) (List.mem_reverse.mp hx))
        (fun x hx => Nat.digits_lt_base (by omega) (List.mem_reverse.mp hx)) hd
    have hdig : Nat.digits 10 a = Nat.digits 10 b := List.reverse_injective hrev
    have h1 := Nat.ofDigits_digits 10 a
    have h2 := Nat.ofDigits_digits 10 b
    rw [← h1, ← h2, hdig]

/-- Appending the underlying character lists is string append. -/
theorem stringMk_append (a b : List Char) :
    String.mk a ++ String.mk b = String.mk (a ++ b) := rfl

/-- `splitext` decomposes its argument: stem ++ extension = original. -/
theorem splitext_append (p : String) : (splitext p).1 ++ (splitext p).2 = p := by
  rw [splitext]
  cases h : extSplitIdx p.data with
  | none => simp
  | some i =>
    show String.mk (p.data.take i) ++ String.mk (p.data.drop i) = p
    rw [stringMk_append, List.take_append_drop]

/-- Stem and extension lengths sum to the original length. -/
theorem splitext_length (p : String) :
    (splitext p).1.length + (splitext p).2.length = p.length := by
  have := congrArg String.length (splitext_append p)
  rwa [String.length_append] at this

/-- Distinct counter values give distinct candidate names. -/
theorem candidateName_inj (original : String) :
    Function.Injective (candidateName original) := by
  intro j k h
  match j, k with
  | 0, 0 => rfl
  | 0, k + 1 =>
    exfalso
    have hlen := congrArg String.length h
    rw [candidateName, candidateName] at hlen
    simp only [String.length_append, show ("_" : String).length = 1 from rfl] at hlen
    have := splitext_length original
    omega
  | j + 1, 0 =>
    exfalso
    have hlen := congrArg String.length h
    rw [candidateName, candidateName] at hlen
    simp only [String.length_append, show ("_" : String).length = 1 from rfl] at hlen
    have := splitext_length original
    omega
  | j + 1, k + 1 =>
    have hd := congrArg String.data h
    rw [candidateName, candidateName] at hd
    simp only [String.data_append] at hd
    have h1 := List.append_cancel_right hd
    have h2 := List.append_cancel_left h1
    have h3 : Nat.repr (j + 1) = Nat.repr (k + 1) := by
      have := congrArg String.mk h2
      exact this
    have := natRepr_inj (j + 1) (k + 1) h3
    omega

/-- Among the first `|occupied| + 1` candidates, at least one is free. -/
theorem free_candidate_exists (occupied : List String) (name : String) :
    ∃ k, k ≤ occupied.length ∧ candidateName name k ∉ occupied := by
  by_contra hcon
  push_neg at hcon
  have hsub : ((List.range (occupied.length + 1)).map (candidateName name)) ⊆ occupied := by
    intro x hx
    obtain ⟨k, hk, rfl⟩ := List.mem_map.mp hx
    exact hcon k (Nat.lt_succ_iff.mp (List.mem_range.mp hk))
  have hnd : ((List.range (occupied.length + 1)).map (candidateName name)).Nodup :=
    (List.nodup_range _).map (candidateName_inj name)
  have hle := (hnd.subperm hsub).length_le
  simp at hle

/-- The collision loop, given enough fuel to reach a free candidate,
returns the first free candidate at or after the starting counter. -/
theorem resolveFrom_spec (occupied : List String) (name : String) :
    ∀ fuel c, (∃ k, c ≤ k ∧ k ≤ c + fuel ∧ candidateName name k ∉ occupied) →
      ∃ m, c ≤ m ∧ resolveFrom occupied name fuel c = candidateName name m ∧
        candidateName name m ∉ occupied ∧
        ∀ j, c ≤ j → j < m → candidateName name j ∈ occupied := by
  intro fuel
  induction fuel with
  | zero =>
    intro c hex
    obtain ⟨k, hk1, hk2, hk3⟩ := hex
    have hkc : k = c := by omega
    subst hkc
    exact ⟨k, Nat.le_refl k, rfl, hk3, fun j h1 h2 => absurd h1 (by omega)⟩
  | succ f ih =>
    intro c hex
    rw [resolveFrom]
    by_cases hc : candidateName name c ∈ occupied
    · rw [if_pos hc]
      obtain ⟨k, hk1, hk2, hk3⟩ := hex
      have hkc : k ≠ c := fun he => hk3 (he ▸ hc)
      obtain ⟨m, hm1, hm2, hm3, hm4⟩ := ih (c + 1) ⟨k, by omega, by omega, hk3⟩
      refine ⟨m, by omega, hm2, hm3, ?_⟩
      intro j hj1 hj2
      rcases Nat.eq_or_lt_of_le hj1 with he | hlt
      · rw [← he]
        exact hc
      · exact hm4 j (by omega) hj2
    · rw [if_neg hc]
      exact ⟨c, Nat.le_refl c, rfl, hc, fun j h1 h2 => absurd h1 (by omega)⟩

/-- C6.  Collision resolution is deterministic and monotonic: for every
desired name and set of occupied paths, the resolved name is the first
free entry of the sequence `name, name_1.ext, name_2.ext, ...` (every
earlier counter value was occupied, so no counter is ever reused); in
particular resolving `report.pdf` against an existing `report.pdf` gives
`report_1.pdf`, and resolving it again once `report_1.pdf` also exists
gives `report_2.pdf`. -/
theorem C6_collision_resolution :
    (∀ (occupied : List String) (name : String),
      ∃ m, resolveFilename occupied name = candidateName name m ∧
        candidateName name m ∉ occupied ∧
        ∀ j, j < m → candidateName name j ∈ occupied) ∧
      resolveFilename ["report.pdf"] ("report.pdf") = "report_1.pdf" ∧
      resolveFilename ["report_1.pdf", "report.pdf"] ("report.pdf") = "report_2.pdf" := by
  refine ⟨?_, by decide, by decide⟩
  intro occupied name
  obtain ⟨k, hk1, hk2⟩ := free_candidate_exists occupied name
  obtain ⟨m, hm1, hm2, hm3, hm4⟩ := resolveFrom_spec occupied name (occupied.length + 1) 0
    ⟨k, Nat.zero_le k, by omega, hk2⟩
  exact ⟨m, hm2, hm3, fun j hj => hm4 j (Nat.zero_le j) hj⟩

/-- Witness for C6: the double-resolution example evaluated concretely,
via the theorem. -/
theorem C6_collision_resolution_witness :
    resolveFilename ["report.pdf"] ("report.pdf") = "report_1.pdf" ∧
      resolveFilename ["report_1.pdf", "report.pdf"] ("report.pdf") = "report_2.pdf" :=
  C6_collision_resolution.2

/-! Helper lemmas for the aggregation pipeline. -/

/-- Adding an empty per-file result leaves the totals unchanged. -/
theorem statsAdd_zero (s : DownloadStats) : statsAdd s zeroStats = s := by
  cases s
  simp [statsAdd, zeroStats]

/-- One assignment step preserves `successful + failed = total`. -/
theorem processAssignment_inv (o : Nat → Bool) (st : DownloadStats × Nat × Nat)
    (a : Assignment)
    (h : st.1.successful_downloads + st.1.failed_downloads = st.1.total_files) :
    (processAssignment o st a).1.successful_downloads +
        (processAssignment o st a).1.failed_downloads =
      (processAssignment o st a).1.total_files := by
  rw [processAssignment]
  cases ha : a.submitAttachments with
  | none => exact h
  | some att =>
    dsimp only
    by_cases hsent : att = "첨부없음" ∨ att = "-"
    · rw [if_pos hsent]
      exact h
    · rw [if_neg hsent]
      cases hurl : (extract_file_info_from_attachment att).2.2 with
      | none => exact h
      | some file_url =>
        dsimp only
        by_cases hval : file_url = "" ∨ ¬ pyStartsWith file_url ("https://") = true
        · rw [if_pos hval]
          exact h
        · rw [if_neg hval]
          rcases st with ⟨stats, k, sf⟩
          dsimp only at h ⊢
          by_cases hok : o k = true
          · rw [if_pos hok]
            dsimp only
            omega
          · rw [if_neg hok]
            dsimp only
            omega

/-- One assignment step either leaves the statistics unchanged or counts
the attachment exactly once: `total_files` grows by one and exactly one
of `successful_downloads` / `failed_downloads` grows by one. -/
theorem processAssignment_delta (o : Nat → Bool) (st : DownloadStats × Nat × Nat)
    (a : Assignment) :
    (processAssignment o st a).1 = st.1 ∨
      ((processAssignment o st a).1.total_files = st.1.total_files + 1 ∧
        (processAssignment o st a).1.successful_downloads +
            (processAssignment o st a).1.failed_downloads =
          st.1.successful_downloads + st.1.failed_downloads + 1 ∧
        (processAssignment o st a).1.students_processed = st.1.students_processed) := by
  rw [processAssignment]
  cases ha : a.submitAttachments with
  | none => exact Or.inl rfl
  | some att =>
    dsimp only
    by_cases hsent : att = "첨부없음" ∨ att = "-"
    · rw [if_pos hsent]
      exact Or.inl rfl
    · rw [if_neg hsent]
      cases hurl : (extract_file_info_from_attachment att).2.2 with
      | none => exact Or.inl rfl
      | some file_url =>
        dsimp only
        by_cases hval : file_url = "" ∨ ¬ pyStartsWith file_url ("https://") = true
        · rw [if_pos hval]
          exact Or.inl rfl
        · rw [if_neg hval]
          rcases st with ⟨stats, k, sf⟩
          dsimp only
          right
          by_cases hok : o k = true
          · rw [if_pos hok]
            exact ⟨rfl, by dsimp only; omega, rfl⟩
          · rw [if_neg hok]
            exact ⟨rfl, by dsimp only; omega, rfl⟩

/-- The assignments fold preserves the invariant. -/
theorem foldl_processAssignment_inv (o : Nat → Bool) :
    ∀ (l : List Assignment) (st : DownloadStats × Nat × Nat),
      st.1.successful_downloads + st.1.failed_downloads = st.1.total_files →
      (l.foldl (processAssignment o) st).1.successful_downloads +
          (l.foldl (processAssignment o) st).1.failed_downloads =
        (l.foldl (processAssignment o) st).1.total_files := by
  intro l
  induction l with
  | nil => intro st h; exact h
  | cons a t ih =>
    intro st h
    exact ih (processAssignment o st a) (processAssignment_inv o st a h)

/-- The member step preserves the invariant. -/
theorem processMember_inv (o : Nat → Bool) (st : DownloadStats × Nat) (m : MemberData)
    (h : st.1.successful_downloads + st.1.failed_downloads = st.1.total_files) :
    (processMember o st m).1.successful_downloads +
        (processMember o st m).1.failed_downloads =
      (processMember o st m).1.total_files := by
  rw [processMember]
  cases hm : m.member with
  | none => exact h
  | some d =>
    dsimp only
    by_cases hempty : m.assignments = []
    · rw [if_pos hempty]
      exact h
    · rw [if_neg hempty]
      have hfold := foldl_processAssignment_inv o m.assignments (st.1, st.2, 0) h
      by_cases hsf : 0 < (m.assignments.foldl (processAssignment o) (st.1, st.2, 0)).2.2
      · rw [if_pos hsf]
        exact hfold
      · rw [if_neg hsf]
        exact hfold

/-- The members fold preserves the invariant. -/
theorem foldl_processMember_inv (o : Nat → Bool) :
    ∀ (l : List MemberData) (st : DownloadStats × Nat),
      st.1.successful_downloads + st.1.failed_downloads = st.1.total_files →
      (l.foldl (processMember o) st).1.successful_downloads +
          (l.foldl (processMember o) st).1.failed_downloads =
        (l.foldl (processMember o) st).1.total_files := by
  intro l
  induction l with
  | nil => intro st h; exact h
  | cons m t ih =>
    intro st h
    exact ih (processMember o st m) (processMember_inv o st m h)

/-- The per-file statistics satisfy the invariant. -/
theorem process_json_file_inv (o : Nat → Bool) (j : Except String ClassData) :
    ((process_json_file o j).getD zeroStats).successful_downloads +
        ((process_json_file o j).getD zeroStats).failed_downloads =
      ((process_json_file o j).getD zeroStats).total_files := by
  cases j with
  | error e => rfl
  | ok data =>
    rw [process_json_file]
    cases data.statsByMember with
    | none => rfl
    | some members =>
      exact foldl_processMember_inv o members (zeroStats, 0) rfl

/-- C10.  After every processed assignment we have
`successful_downloads + failed_downloads = total_files` (assuming it held
before the step), each step counts a validated attachment exactly once —
`total_files` and exactly one of the two outcome counters grow by one,
and a skipped attachment changes nothing — and the invariant holds for
the final statistics of every processed JSON file. -/
theorem C10_stats_invariant :
    (∀ (o : Nat → Bool) (st : DownloadStats × Nat × Nat) (a : Assignment),
      st.1.successful_downloads + st.1.failed_downloads = st.1.total_files →
      (processAssignment o st a).1.successful_downloads +
          (processAssignment o st a).1.failed_downloads =
        (processAssignment o st a).1.total_files) ∧
    (∀ (o : Nat → Bool) (st : DownloadStats × Nat × Nat) (a : Assignment),
      (processAssignment o st a).1 = st.1 ∨
        ((processAssignment o st a).1.total_files = st.1.total_files + 1 ∧
          (processAssignment o st a).1.successful_downloads +
              (processAssignment o st a).1.failed_downloads =
            st.1.successful_downloads + st.1.failed_downloads + 1 ∧
          (processAssignment o st a).1.students_processed = st.1.students_processed)) ∧
    (∀ (o : Nat → Bool) (j : Except String ClassData),
      ((process_json_file o j).getD zeroStats).successful_downloads +
          ((process_json_file o j).getD zeroStats).failed_downloads =
        ((process_json_file o j).getD zeroStats).total_files) :=
  ⟨processAssignment_inv, processAssignment_delta, process_json_file_inv⟩

/-- Witness for C10: the invariant checked through a concrete assignment
step from the zero state, via the theorem. -/
theorem C10_stats_invariant_witness :
    (processAssignment (fun _ => true) (zeroStats, 0, 0)
          { subject := none, submitSubject := none,
            submitAttachments :=
              some ("application/pdf | hw1.pdf | https://files/a.pdf"),
            submitCreated := none, submitReview := none }).1.successful_downloads +
        (processAssignment (fun _ => true) (zeroStats, 0, 0)
          { subject := none, submitSubject := none,
            submitAttachments :=
              some ("application/pdf | hw1.pdf | https://files/a.pdf"),
            submitCreated := none, submitReview := none }).1.failed_downloads =
      (processAssignment (fun _ => true) (zeroStats, 0, 0)
          { subject := none, submitSubject := none,
            submitAttachments :=
              some ("application/pdf | hw1.pdf | https://files/a.pdf"),
            submitCreated := none, submitReview := none }).1.total_files :=
  C10_stats_invariant.1 (fun _ => true) (zeroStats, 0, 0) _ (by decide)

/-- C8.  A failed JSON read/parse is caught inside `process_json_file`:
the file yields the empty result (`none`, read back as all-zero counts by
the accumulation loop), and the whole-run fold is unaffected by the bad
file — processing continues with the remaining files and produces the
same totals as if the bad file were absent. -/
theorem C8_bad_file_isolated (xs ys : List ((Nat → Bool) × Except String ClassData))
    (e : String) (o : Nat → Bool) :
    runAll (xs ++ (o, Except.error e) :: ys) = runAll (xs ++ ys) ∧
      process_json_file o (Except.error e) = none ∧
      (process_json_file o (Except.error e)).getD zeroStats = zeroStats := by
  refine ⟨?_, rfl, rfl⟩
  rw [runAll, runAll, List.foldl_append, List.foldl_append, List.foldl_cons]
  rw [show process_json_file o (Except.error e) = none from rfl]
  rw [show (none : Option DownloadStats).getD zeroStats = zeroStats from rfl]
  rw [statsAdd_zero]

/-- Witness for C8: a concrete run with one good file, one unreadable
file, and one good file after it, via the theorem. -/
theorem C8_bad_file_isolated_witness :
    runAll [((fun _ => true), Except.ok fixtureData),
        ((fun _ => true), Except.error ("bad json")),
        ((fun _ => true), Except.ok fixtureData)] =
      runAll [((fun _ => true), Except.ok fixtureData),
        ((fun _ => true), Except.ok fixtureData)] ∧
      process_json_file (fun _ => true) (Except.error ("bad json")) = none :=
  ⟨(C8_bad_file_isolated [((fun _ => true), Except.ok fixtureData)]
      [((fun _ => true), Except.ok fixtureData)] ("bad json") (fun _ => true)).1,
    (C8_bad_file_isolated [] [] ("bad json") (fun _ => true)).2.1⟩

/-! Helper lemmas for the CSV row ordering. -/

/-- All rows written for one student carry that student's name, so the
name column is trivially ordered inside the block. -/
theorem pairwise_block (name : String) (infos : List AssignmentInfo) :
    ((infos.map (fun info => (name, info))).Pairwise
      (fun r s : String × AssignmentInfo => r.1 ≤ s.1)) := by
  rw [List.pairwise_map]
  induction infos with
  | nil => exact List.Pairwise.nil
  | cons a t ih => exact List.Pairwise.cons (fun b _ => le_refl name) ih

/-- The data rows of `create_csv_file` are ordered by student name. -/
theorem create_csv_rows_sorted (sa : List (String × List AssignmentInfo)) :
    (create_csv_rows sa).Pairwise (fun r s : String × AssignmentInfo => r.1 ≤ s.1) := by
  rw [create_csv_rows]
  refine List.pairwise_flatMap.mpr ⟨?_, ?_⟩
  · intro name _
    exact pairwise_block name _
  · have hsorted : (List.insertionSort (fun a b : String => a ≤ b)
        (sa.map Prod.fst)).Pairwise (fun a b : String => a ≤ b) :=
      List.sorted_insertionSort _ _
    refine hsorted.imp ?_
    intro a b hab x hx y hy
    obtain ⟨ia, _, rfl⟩ := List.mem_map.mp hx
    obtain ⟨ib, _, rfl⟩ := List.mem_map.mp hy
    exact hab

/-- Rows of one student are contiguous: a row lying between two rows with
the same name carries that name as well. -/
theorem create_csv_rows_between (sa : List (String × List AssignmentInfo))
    (i j k : Nat) (hi : i < (create_csv_rows sa).length)
    (hj : j < (create_csv_rows sa).length) (hk : k < (create_csv_rows sa).length)
    (hij : i ≤ j) (hjk : j ≤ k)
    (hik : ((create_csv_rows sa).get ⟨i, hi⟩).1 = ((create_csv_rows sa).get ⟨k, hk⟩).1) :
    ((create_csv_rows sa).get ⟨i, hi⟩).1 = ((create_csv_rows sa).get ⟨j, hj⟩).1 := by
  have hpg := List.pairwise_iff_get.mp (create_csv_rows_sorted sa)
  have h1 : ((create_csv_rows sa).get ⟨i, hi⟩).1 ≤ ((create_csv_rows sa).get ⟨j, hj⟩).1 := by
    rcases Nat.eq_or_lt_of_le hij with he | hlt
    · subst he
      exact le_refl _
    · exact hpg ⟨i, hi⟩ ⟨j, hj⟩ hlt
  have h2 : ((create_csv_rows sa).get ⟨j, hj⟩).1 ≤ ((create_csv_rows sa).get ⟨k, hk⟩).1 := by
    rcases Nat.eq_or_lt_of_le hjk with he | hlt
    · subst he
      exact le_refl _
    · exact hpg ⟨j, hj⟩ ⟨k, hk⟩ hlt
  rw [← hik] at h2
  exact le_antisymm h1 h2

/-- C9.  The data rows are ordered ascending by student name, rows of one
student are contiguous, and the two-member fixture — one member with two
valid attachments, one with only the sentinel — yields exactly two data
rows, both for the member with attachments. -/
theorem C9_csv_rows :
    (∀ sa : List (String × List AssignmentInfo),
      (create_csv_rows sa).Pairwise (fun r s : String × AssignmentInfo => r.1 ≤ s.1)) ∧
    (∀ (sa : List (String × List AssignmentInfo)) (i j k : Nat)
      (hi : i < (create_csv_rows sa).length) (hj : j < (create_csv_rows sa).length)
      (hk : k < (create_csv_rows sa).length), i ≤ j → j ≤ k →
      ((create_csv_rows sa).get ⟨i, hi⟩).1 = ((create_csv_rows sa).get ⟨k, hk⟩).1 →
      ((create_csv_rows sa).get ⟨i, hi⟩).1 = ((create_csv_rows sa).get ⟨j, hj⟩).1) ∧
    (create_csv_rows (extract_student_assignments_from_json fixtureData)).length = 2 ∧
    (create_csv_rows (extract_student_assignments_from_json fixtureData)).map Prod.fst =
      ["이영희", "이영희"] :=
  ⟨create_csv_rows_sorted,
    fun sa i j k hi hj hk hij hjk hik => create_csv_rows_between sa i j k hi hj hk hij hjk hik,
    by decide, by decide⟩

/-- Witness for C9: contiguity applied at the fixture's two rows, whose
names are both the attachment-bearing student's. -/
theorem C9_csv_rows_witness :
    ((create_csv_rows (extract_student_assignments_from_json fixtureData)).get
        ⟨0, by decide⟩).1 =
      ((create_csv_rows (extract_student_assignments_from_json fixtureData)).get
        ⟨1, by decide⟩).1 :=
  C9_csv_rows.2.1 (extract_student_assignments_from_json fixtureData) 0 1 1
    (by decide) (by decide) (by decide) (by omega) (by omega) (by decide)
